import Mathlib

/-!
Equations nodes of the equation compiler (`library/equations_compiler/equations.cpp`)

A shallow embedding of the representation layer for pattern-matching equations:
tagged metadata nodes (equations, no-equations, as-patterns), the `equations`
macro node with its header, the result-tuple encoding and the binary
reader/writer of the header.

Conventions of the embedding.

* Functions guarded by `lean_assert` return `Except error _`; a failed assertion is
  `error.assertion_violation`, a thrown `corrupted_stream_exception` is
  `error.corrupted_stream_exception`.
* Reads that the C++ leaves undefined (indexing past an array, a bad `static_cast`)
  are `error.undefined_behaviour`.
* `unsigned` values are natural numbers below `2 ^ 32`; subtraction on them is
  `unsigned_sub`, which wraps.
* A C++ pair `(unsigned num, expr const * args)` is a pair `(num : Nat) (args : List expr)`
  and denotes the first `num` entries of `args`.
-/

namespace lean

/-! ## Host framework: names, metadata maps, expressions -/

/-- Failures raised by the module. -/
inductive error where
  | assertion_violation
  | corrupted_stream_exception
  | exception (msg : String)
  | undefined_behaviour
  deriving DecidableEq

/-- Modelled from the spec: the name-interning type (hierarchical names). -/
inductive name where
  | anonymous
  | str (p : name) (s : String)
  | num (p : name) (k : Nat)
  deriving DecidableEq

/-- Modelled from the spec: `name(char const *)`, a one-component string name. -/
def name.of_string (s : String) : name := name.str name.anonymous s

/-- Modelled from the spec: the values a metadata map can hold. -/
inductive data_value where
  | string (s : String)
  | nat (n : Nat)
  | bool (b : Bool)
  | name (n : lean.name)
  deriving DecidableEq

/-- Modelled from the spec: the metadata-map type, an association list keyed by names. -/
abbrev kvmap := List (name × data_value)

/-- Modelled from the spec: lookup of a key in a metadata map (first entry wins). -/
def find (m : kvmap) (k : name) : Option data_value :=
  match m with
  | [] => none
  | (k', v) :: rest => if k' = k then some v else find rest k

/-- Modelled from the spec: `get_bool(map, key) -> optional<bool>`. -/
def get_bool (m : kvmap) (k : name) : Option Bool :=
  match find m k with
  | some (data_value.bool b) => some b
  | _ => none

/-- Modelled from the spec: `get_nat(map, key) -> optional<uint>`. -/
def get_nat (m : kvmap) (k : name) : Option Nat :=
  match find m k with
  | some (data_value.nat n) => some n
  | _ => none

/-- Modelled from the spec: `set_bool(map, key, value)`. -/
def set_bool (m : kvmap) (k : name) (v : Bool) : kvmap := (k, data_value.bool v) :: m

/-- Modelled from the spec: `set_nat(map, key, value)`. -/
def set_nat (m : kvmap) (k : name) (v : Nat) : kvmap := (k, data_value.nat v) :: m

/-- Width of the C++ type `unsigned`. -/
def unsigned_size : Nat := 4294967296

/-- Subtraction `a - b` on `unsigned` operands (both below `2 ^ 32`): wraps around
modulo `2 ^ 32`. -/
def unsigned_sub (a b : Nat) : Nat := (unsigned_size + a - b) % unsigned_size

/-- Modelled from the spec: `nat::get_small_value`, asserting that the number fits an `unsigned`. -/
def get_small_value (n : Nat) : Except error Nat :=
  if n < unsigned_size then pure n else throw error.assertion_violation

/-- The header record of an equations node (`equations_header` of `equations.h`). -/
structure equations_header where
  m_num_fns : Nat
  m_fn_names : List name
  m_fn_actual_names : List name
  m_is_private : Bool
  m_is_lemma : Bool
  m_is_meta : Bool
  m_is_noncomputable : Bool
  m_aux_lemmas : List name
  m_prev_errors : Bool
  m_gen_code : Bool
  deriving DecidableEq

/-- Universe levels of the host expression type. -/
inductive level where
  | zero
  | succ (l : level)
  | max (a b : level)
  | imax (a b : level)
  | param (n : name)
  | meta (n : name)
  deriving DecidableEq

/-- Binder annotations of the host expression type. -/
inductive binder_info where
  | default
  | implicit
  | strict_implicit
  | inst_implicit
  deriving DecidableEq

/-- Literals of the host expression type. -/
inductive literal where
  | nat (n : Nat)
  | string (s : String)
  deriving DecidableEq

/-- Source positions (line, column). -/
abbrev pos_info := Nat × Nat

def g_equations_name : name := name.of_string "equations"
def g_equation_name : name := name.of_string "equation"
def g_no_equation_name : name := name.of_string "no_equation"
def g_inaccessible_name : name := name.of_string "innaccessible"
def g_equations_result_name : name := name.of_string "equations_result"
def g_as_pattern_name : name := name.of_string "as_pattern"
def g_equations_opcode : String := "Eqns"

/-- The macro definition cells. `equations_macro_cell` is the class of this module; every
other macro kind of the host framework is an `other_macro_cell` carrying its name. -/
inductive macro_definition_cell where
  | equations_macro_cell (m_header : equations_header)
  | other_macro_cell (nm : name)
  deriving DecidableEq

abbrev macro_definition := macro_definition_cell

/-- Virtual `get_name` of a macro cell. -/
def macro_definition_cell.get_name : macro_definition_cell → name
  | .equations_macro_cell _ => g_equations_name
  | .other_macro_cell nm => nm

/-- Modelled from the spec: the host expression tree. A macro node carries its optional
source position, its definition cell and its ordered children. -/
inductive expr where
  | BVar (idx : Nat)
  | FVar (n : name)
  | MVar (n : name)
  | Sort (l : level)
  | Constant (n : name) (ls : List level)
  | App (fn arg : expr)
  | Lambda (n : name) (bi : binder_info) (type body : expr)
  | Pi (n : name) (bi : binder_info) (type body : expr)
  | Let (n : name) (type val body : expr)
  | Lit (l : literal)
  | MData (data : kvmap) (e : expr)
  | Proj (idx : Nat) (e : expr)
  | Macro (pos : Option pos_info) (d : macro_definition) (args : List expr)

def mk_app (f a : expr) : expr := expr.App f a
def mk_mdata (m : kvmap) (e : expr) : expr := expr.MData m e
def mk_Prop : expr := expr.Sort level.zero

def is_app : expr → Bool
  | .App _ _ => true
  | _ => false

def is_lambda : expr → Bool
  | .Lambda _ _ _ _ => true
  | _ => false

def is_mdata : expr → Bool
  | .MData _ _ => true
  | _ => false

def is_macro : expr → Bool
  | .Macro _ _ _ => true
  | _ => false

/-- Accessor `app_fn`, asserting `is_app`. -/
def app_fn : expr → Except error expr
  | .App f _ => pure f
  | _ => throw error.assertion_violation

/-- Accessor `app_arg`, asserting `is_app`. -/
def app_arg : expr → Except error expr
  | .App _ a => pure a
  | _ => throw error.assertion_violation

/-- Accessor `mdata_expr`, asserting `is_mdata`. -/
def mdata_expr : expr → Except error expr
  | .MData _ e => pure e
  | _ => throw error.assertion_violation

/-- Accessor `mdata_data`, asserting `is_mdata`. -/
def mdata_data : expr → Except error kvmap
  | .MData m _ => pure m
  | _ => throw error.assertion_violation

/-- Accessor `macro_def`, asserting `is_macro`. -/
def macro_def : expr → Except error macro_definition
  | .Macro _ d _ => pure d
  | _ => throw error.assertion_violation

/-- Accessor `macro_num_args`, asserting `is_macro`. -/
def macro_num_args : expr → Except error Nat
  | .Macro _ _ args => pure args.length
  | _ => throw error.assertion_violation

/-- Accessor `macro_arg(e, i)`, asserting `is_macro`; an index past the children is undefined. -/
def macro_arg : expr → Nat → Except error expr
  | .Macro _ _ args, i =>
    match args.get? i with
    | some a => pure a
    | none => throw error.undefined_behaviour
  | _, _ => throw error.assertion_violation

/-- The first `num` entries of a C++ array; reading past its end is undefined. -/
def array_slice (num : Nat) (args : List expr) : Except error (List expr) :=
  if num ≤ args.length then pure (args.take num) else throw error.undefined_behaviour

/-- The entry `args[i]` of a C++ array; reading past its end is undefined. -/
def array_get (args : List expr) (i : Nat) : Except error expr :=
  match args.get? i with
  | some a => pure a
  | none => throw error.undefined_behaviour

/-- Host constructor `mk_macro(def, num, args)`: a fresh macro node without position. -/
def mk_macro (d : macro_definition) (num : Nat) (args : List expr) : Except error expr := do
  let as ← array_slice num args
  pure (expr.Macro none d as)

/-- Accessor `macro_args`, the children array of a macro node, asserting `is_macro`. -/
def macro_args : expr → Except error (List expr)
  | .Macro _ _ args => pure args
  | _ => throw error.assertion_violation

/-- Modelled from the spec: `copy_pos(src, dest)` gives `dest` the source position of `src`. -/
def copy_pos (src dest : expr) : expr :=
  match src, dest with
  | .Macro p _ _, .Macro _ d args => expr.Macro p d args
  | _, _ => dest

/-! ## Header equality and the equations macro cell -/

/-- Transcribes `operator==(equations_header const &, equations_header const &)`. -/
def equations_header_eq (h1 h2 : equations_header) : Bool :=
  h1.m_num_fns == h2.m_num_fns &&
  h1.m_fn_names == h2.m_fn_names &&
  h1.m_fn_actual_names == h2.m_fn_actual_names &&
  h1.m_is_private == h2.m_is_private &&
  h1.m_is_lemma == h2.m_is_lemma &&
  h1.m_is_meta == h2.m_is_meta &&
  h1.m_is_noncomputable == h2.m_is_noncomputable &&
  h1.m_aux_lemmas == h2.m_aux_lemmas &&
  h1.m_prev_errors == h2.m_prev_errors &&
  h1.m_gen_code == h2.m_gen_code

/-- Transcribes `throw_eqs_ex`: it never returns. -/
def throw_eqs_ex {α : Type} : Except error α :=
  throw (error.exception "unexpected occurrence of 'equations' expression")

/-- Method `equations_macro_cell::check_type(expr const &, abstract_type_context &, bool)`;
the type of the context is a parameter, since the method never looks at it. -/
def equations_macro_cell_check_type {ctx : Type} (_m_header : equations_header) (_e : expr)
    (_c : ctx) (_infer_only : Bool) : Except error expr :=
  throw_eqs_ex

/-- Method `equations_macro_cell::expand(expr const &, abstract_type_context &)`. -/
def equations_macro_cell_expand {ctx : Type} (_m_header : equations_header) (_e : expr)
    (_c : ctx) : Except error (Option expr) :=
  throw_eqs_ex

/-- Method `equations_macro_cell::operator==(macro_definition_cell const &)`: the
`dynamic_cast` succeeds exactly on the cells of this class. -/
def equations_macro_cell_eq (m_header : equations_header) (other : macro_definition_cell) :
    Bool :=
  match other with
  | .equations_macro_cell h => equations_header_eq m_header h
  | .other_macro_cell _ => false

/-! ## Tagged-node predicates and constructors -/

def g_equation : kvmap := set_bool [] g_equation_name false
def g_equation_ignore_if_unused : kvmap := set_bool [] g_equation_name true
def g_no_equation : kvmap := set_bool [] g_no_equation_name false
def g_as_pattern : kvmap := set_bool [] g_as_pattern_name true

def mk_equation (lhs rhs : expr) (ignore_if_unused : Bool) : expr :=
  if ignore_if_unused then
    mk_mdata g_equation_ignore_if_unused (mk_app lhs rhs)
  else
    mk_mdata g_equation (mk_app lhs rhs)

def mk_no_equation : expr := mk_mdata g_no_equation mk_Prop

/-- Transcribes `is_mdata(e) && get_bool(mdata_data(e), *g_equation_name)`. -/
def is_equation : expr → Bool
  | .MData m _ => (get_bool m g_equation_name).isSome
  | _ => false

def ignore_equation_if_unused (e : expr) : Except error Bool := do
  if !is_equation e then throw error.assertion_violation
  let m ← mdata_data e
  match get_bool m g_equation_name with
  | some b => pure b
  | none => throw error.undefined_behaviour

def is_lambda_equation : expr → Bool
  | .Lambda _ _ _ b => is_lambda_equation b
  | e => is_equation e

def equation_lhs (e : expr) : Except error expr := do
  if !is_equation e then throw error.assertion_violation
  let a ← mdata_expr e
  app_fn a

def equation_rhs (e : expr) : Except error expr := do
  if !is_equation e then throw error.assertion_violation
  let a ← mdata_expr e
  app_arg a

/-- Transcribes `is_mdata(e) && get_bool(mdata_data(e), *g_no_equation_name)`. -/
def is_no_equation : expr → Bool
  | .MData m _ => (get_bool m g_no_equation_name).isSome
  | _ => false

def is_lambda_no_equation : expr → Bool
  | .Lambda _ _ _ b => is_lambda_no_equation b
  | e => is_no_equation e

def mk_as_pattern (lhs rhs : expr) : expr := mk_mdata g_as_pattern (mk_app lhs rhs)

/-- Transcribes `is_mdata(e) && get_bool(mdata_data(e), *g_as_pattern_name)`. -/
def is_as_pattern : expr → Bool
  | .MData m _ => (get_bool m g_as_pattern_name).isSome
  | _ => false

def get_as_pattern_lhs (e : expr) : Except error expr := do
  if !is_as_pattern e then throw error.assertion_violation
  let a ← mdata_expr e
  app_fn a

def get_as_pattern_rhs (e : expr) : Except error expr := do
  if !is_as_pattern e then throw error.assertion_violation
  let a ← mdata_expr e
  app_arg a

/-! ## The equations node -/

/-- Transcribes `is_macro(e) && macro_def(e).get_name() == *g_equations_name`. -/
def is_equations : expr → Bool
  | .Macro _ d _ => decide (d.get_name = g_equations_name)
  | _ => false

def is_wf_equations_core (e : expr) : Except error Bool := do
  if !is_equations e then throw error.assertion_violation
  let n ← macro_num_args e
  if n ≥ 2 then
    let last ← macro_arg e (unsigned_sub n 1)
    pure (!is_lambda_equation last)
  else
    pure false

def is_wf_equations (e : expr) : Except error Bool :=
  if is_equations e then is_wf_equations_core e else pure false

def equations_size (e : expr) : Except error Nat := do
  if !is_equations e then throw error.assertion_violation
  if (← is_wf_equations_core e) then
    let n ← macro_num_args e
    pure (unsigned_sub n 1)
  else
    macro_num_args e

/-- The `static_cast` to `equations_macro_cell` is undefined on any other cell. -/
def get_equations_header (e : expr) : Except error equations_header := do
  if !is_equations e then throw error.assertion_violation
  match (← macro_def e) with
  | .equations_macro_cell h => pure h
  | .other_macro_cell _ => throw error.undefined_behaviour

def equations_num_fns (e : expr) : Except error Nat := do
  let h ← get_equations_header e
  pure h.m_num_fns

def equations_wf_tactics (e : expr) : Except error expr := do
  if !(← is_wf_equations e) then throw error.assertion_violation
  let n ← macro_num_args e
  macro_arg e (unsigned_sub n 1)

/-- The loop `for (i = ...; i < sz; i++) eqns.push_back(macro_arg(e, i))` with `k = sz - i`
iterations left. -/
def to_equations_loop (e : expr) : Nat → Nat → List expr → Except error (List expr)
  | 0, _, eqns => pure eqns
  | k + 1, i, eqns => do
    let a ← macro_arg e i
    to_equations_loop e k (i + 1) (eqns ++ [a])

/-- Appends the equation children of `e` to the buffer `eqns`. -/
def to_equations (e : expr) (eqns : List expr) : Except error (List expr) := do
  if !is_equations e then throw error.assertion_violation
  let sz ← equations_size e
  to_equations_loop e sz 0 eqns

/-- Overload `mk_equations(h, num_eqs, eqs)`. -/
def mk_equations (h : equations_header) (num_eqs : Nat) (eqs : List expr) :
    Except error expr := do
  if !(h.m_num_fns > 0) then throw error.assertion_violation
  if !(num_eqs > 0) then throw error.assertion_violation
  let es ← array_slice num_eqs eqs
  if !(es.all fun e => is_lambda_equation e || is_lambda_no_equation e) then
    throw error.assertion_violation
  let d : macro_definition := macro_definition_cell.equations_macro_cell h
  mk_macro d num_eqs eqs

/-- Overload `mk_equations(h, num_eqs, eqs, tacs)`. -/
def mk_equations_with_tacs (h : equations_header) (num_eqs : Nat) (eqs : List expr)
    (tacs : expr) : Except error expr := do
  if !(h.m_num_fns > 0) then throw error.assertion_violation
  if !(num_eqs > 0) then throw error.assertion_violation
  let es ← array_slice num_eqs eqs
  if !(es.all is_lambda_equation) then throw error.assertion_violation
  let args := es ++ [tacs]
  let d : macro_definition := macro_definition_cell.equations_macro_cell h
  mk_macro d args.length args

/-- Overload `update_equations(eqns, new_eqs)`. -/
def update_equations (eqns : expr) (new_eqs : List expr) : Except error expr := do
  if !is_equations eqns then throw error.assertion_violation
  if new_eqs.isEmpty then throw error.assertion_violation
  if (← is_wf_equations eqns) then
    let h ← get_equations_header eqns
    let tacs ← equations_wf_tactics eqns
    let r ← mk_equations_with_tacs h new_eqs.length new_eqs tacs
    pure (copy_pos eqns r)
  else
    let h ← get_equations_header eqns
    let r ← mk_equations h new_eqs.length new_eqs
    pure (copy_pos eqns r)

/-- Overload `update_equations(eqns, header)`. -/
def update_equations_header (eqns : expr) (header : equations_header) :
    Except error expr := do
  let eqs ← to_equations eqns []
  if (← is_wf_equations eqns) then
    let tacs ← equations_wf_tactics eqns
    let r ← mk_equations_with_tacs header eqs.length eqs tacs
    pure (copy_pos eqns r)
  else
    let r ← mk_equations header eqs.length eqs
    pure (copy_pos eqns r)

def remove_wf_annotation_from_equations (eqns : expr) : Except error expr := do
  if (← is_wf_equations eqns) then
    let eqs ← to_equations eqns []
    let h ← get_equations_header eqns
    let r ← mk_equations h eqs.length eqs
    pure (copy_pos eqns r)
  else
    pure eqns

/-! ## Result tuples -/

/-- The loop `while (i > 0) { --i; r = mk_app(rs[i], r); }`. -/
def mk_equations_result_loop (rs : List expr) : Nat → expr → Except error expr
  | 0, r => pure r
  | i + 1, r => do
    let x ← array_get rs i
    mk_equations_result_loop rs i (mk_app x r)

def is_equations_result : expr → Bool
  | .MData m _ => (get_nat m g_equations_result_name).isSome
  | _ => false

/-- Dereferencing the empty optional of a missing size tag is undefined. -/
def get_equations_result_size (e : expr) : Except error Nat := do
  let m ← mdata_data e
  match get_nat m g_equations_result_name with
  | some n => get_small_value n
  | none => throw error.undefined_behaviour

def mk_equations_result (n : Nat) (rs : List expr) : Except error expr := do
  if !(n > 0) then throw error.assertion_violation
  let r ← array_get rs (unsigned_sub n 1)
  let i := unsigned_sub n 1
  let r ← mk_equations_result_loop rs i r
  let m := set_nat [] g_equations_result_name n
  let r := mk_mdata m r
  if !((← get_equations_result_size r) == n) then throw error.assertion_violation
  pure r

/-- The loop `while (i > 1) { --i; r.push_back(app_fn(it)); it = app_arg(it); }`,
returning the final `it` and the buffer. -/
def get_equations_result_loop : Nat → expr → List expr → Except error (expr × List expr)
  | i + 2, it, r => do
    if !is_app it then throw error.assertion_violation
    let f ← app_fn it
    let a ← app_arg it
    get_equations_result_loop (i + 1) a (r ++ [f])
  | _, it, r => pure (it, r)

/-- The static overload `get_equations_result(e, r)` filling the buffer `r`. -/
def get_equations_result_buffer (e : expr) (r : List expr) : Except error (List expr) := do
  if !is_equations_result e then throw error.assertion_violation
  let it ← mdata_expr e
  let i ← get_equations_result_size e
  let (it, r) ← get_equations_result_loop i it r
  pure (r ++ [it])

/-- Overload `get_equations_result(e, i)`; `buffer::operator[]` asserts the index. -/
def get_equations_result (e : expr) (i : Nat) : Except error expr := do
  let tmp ← get_equations_result_buffer e []
  match tmp.get? i with
  | some x => pure x
  | none => throw error.assertion_violation

/-! ## Binary writer and reader -/

/-- Modelled from the spec: the objects of the binary stream, one per primitive write. -/
inductive object where
  | string (s : String)
  | unsigned (n : Nat)
  | bool (b : Bool)
  | names (ns : List name)
  deriving DecidableEq

/-- Modelled from the spec: a serializer is the stream written so far. -/
abbrev serializer := List object

/-- Modelled from the spec: a deserializer is the stream still to be read. -/
abbrev deserializer := List object

/-- Modelled from the spec: reading an `unsigned`. -/
def read_unsigned : deserializer → Except error (Nat × deserializer)
  | object.unsigned n :: d => pure (n, d)
  | _ => throw error.corrupted_stream_exception

/-- Modelled from the spec: reading a `bool`. -/
def read_bool : deserializer → Except error (Bool × deserializer)
  | object.bool b :: d => pure (b, d)
  | _ => throw error.corrupted_stream_exception

/-- Modelled from the spec: reading a string. -/
def read_string : deserializer → Except error (String × deserializer)
  | object.string s :: d => pure (s, d)
  | _ => throw error.corrupted_stream_exception

/-- Modelled from the spec: reading a length-prefixed list of names. -/
def read_names : deserializer → Except error (List name × deserializer)
  | object.names ns :: d => pure (ns, d)
  | _ => throw error.corrupted_stream_exception

/-- Method `equations_macro_cell::write`. -/
def equations_macro_cell_write (m_header : equations_header) (s : serializer) : serializer :=
  let s := s ++ [object.string g_equations_opcode] ++ [object.unsigned m_header.m_num_fns]
    ++ [object.bool m_header.m_is_private] ++ [object.bool m_header.m_is_meta]
    ++ [object.bool m_header.m_is_noncomputable] ++ [object.bool m_header.m_is_lemma]
    ++ [object.names m_header.m_aux_lemmas] ++ [object.bool m_header.m_prev_errors]
    ++ [object.bool m_header.m_gen_code]
  let s := s ++ [object.names m_header.m_fn_names]
  s ++ [object.names m_header.m_fn_actual_names]

/-- Virtual `write` of a macro cell; only the cell of this module is in the source. -/
def macro_definition_cell.write : macro_definition_cell → serializer → Option serializer
  | .equations_macro_cell h, s => some (equations_macro_cell_write h s)
  | .other_macro_cell _, _ => none

/-- The header reads at the start of the reader registered by `initialize_equations`. -/
def read_equations_header (d : deserializer) : Except error (equations_header × deserializer) := do
  let (num_fns, d) ← read_unsigned d
  let (is_private, d) ← read_bool d
  let (is_meta, d) ← read_bool d
  let (is_noncomputable, d) ← read_bool d
  let (is_lemma, d) ← read_bool d
  let (aux_lemmas, d) ← read_names d
  let (prev_errors, d) ← read_bool d
  let (gen_code, d) ← read_bool d
  let (fn_names, d) ← read_names d
  let (fn_actual_names, d) ← read_names d
  let h : equations_header :=
    { m_num_fns := num_fns, m_fn_names := fn_names, m_fn_actual_names := fn_actual_names,
      m_is_private := is_private, m_is_lemma := is_lemma, m_is_meta := is_meta,
      m_is_noncomputable := is_noncomputable, m_aux_lemmas := aux_lemmas,
      m_prev_errors := prev_errors, m_gen_code := gen_code }
  pure (h, d)

/-- The reader registered under the opcode by `initialize_equations`. -/
def equations_macro_deserializer (d : deserializer) (num : Nat) (args : List expr) :
    Except error (expr × deserializer) := do
  let (h, d) ← read_equations_header d
  if num == 0 || h.m_num_fns == 0 then throw error.corrupted_stream_exception
  let last ← array_get args (unsigned_sub num 1)
  if !is_lambda_equation last && !is_lambda_no_equation last then
    if num ≤ 1 then throw error.corrupted_stream_exception
    let r ← mk_equations_with_tacs h (unsigned_sub num 1) args last
    pure (r, d)
  else
    let r ← mk_equations h num args
    pure (r, d)

/-- Modelled from the spec: the opcode-keyed table filled by `register_macro_deserializer`. -/
def macro_deserializers :
    List (String × (deserializer → Nat → List expr → Except error (expr × deserializer))) :=
  [(g_equations_opcode, equations_macro_deserializer)]

/-- Modelled from the spec: the host reads the opcode and hands the stream and the
already deserialized children to the reader registered under it. -/
def read_macro (d : deserializer) (num : Nat) (args : List expr) :
    Except error (expr × deserializer) := do
  let (k, d) ← read_string d
  match macro_deserializers.lookup k with
  | some reader => reader d num args
  | none => throw error.corrupted_stream_exception

/-! ## Concrete data used in examples -/

def example_header : equations_header :=
  { m_num_fns := 1, m_fn_names := [name.of_string "f"],
    m_fn_actual_names := [name.str (name.of_string "f") "_main"],
    m_is_private := false, m_is_lemma := false, m_is_meta := false,
    m_is_noncomputable := false, m_aux_lemmas := [], m_prev_errors := false,
    m_gen_code := false }

/-- The child `λx. equation(f x, 0, ignore=false)`. -/
def example_eq1 : expr :=
  expr.Lambda (name.of_string "x") binder_info.default mk_Prop
    (mk_equation (mk_app (expr.Constant (name.of_string "f") []) (expr.BVar 0))
      (expr.Lit (literal.nat 0)) false)

/-- The child `λx. no_equation()`. -/
def example_eq2 : expr :=
  expr.Lambda (name.of_string "x") binder_info.default mk_Prop mk_no_equation

/-- A proof script: any expression that is neither equation-shaped nor no-equation-shaped. -/
def example_tacs : expr := expr.Constant (name.of_string "tac") []

/-! ## Auxiliary lemmas -/

theorem unsigned_sub_one (n : Nat) (h1 : 0 < n) (h2 : n < unsigned_size) :
    unsigned_sub n 1 = n - 1 := by
  unfold unsigned_sub unsigned_size at *
  omega

theorem array_slice_length (cs : List expr) : array_slice cs.length cs = .ok cs := by
  simp [array_slice, pure, Except.pure]

theorem mk_macro_length (d : macro_definition) (cs : List expr) :
    mk_macro d cs.length cs = .ok (expr.Macro none d cs) := by
  simp [ mk_macro, array_slice_length, bind, Except.bind, pure, Except.pure]

theorem is_equations_node (p : Option pos_info) (h : equations_header) (args : List expr) :
    is_equations (expr.Macro p (.equations_macro_cell h) args) = true := by
  simp [is_equations, macro_definition_cell.get_name]

theorem is_wf_equations_snoc (p : Option pos_info) (h : equations_header) (init : List expr)
    (last : expr) (hne : init ≠ []) (hlen : init.length + 1 < unsigned_size) :
    is_wf_equations (expr.Macro p (.equations_macro_cell h) (init ++ [last]))
      = .ok (!is_lambda_equation last) := by
  have hpos : 0 < init.length := List.length_pos.mpr hne
  have hsub : unsigned_sub (init.length + 1) 1 = init.length :=
    unsigned_sub_one _ (by omega) hlen
  have h2 : 2 ≤ init.length + 1 := by omega
  simp [is_wf_equations, is_wf_equations_core, is_equations_node, macro_num_args, macro_arg,
    bind, Except.bind, pure, Except.pure, hsub, h2]

theorem is_wf_equations_short (p : Option pos_info) (h : equations_header) (args : List expr)
    (hlen : args.length < 2) :
    is_wf_equations (expr.Macro p (.equations_macro_cell h) args) = .ok false := by
  have h2 : ¬ 2 ≤ args.length := by omega
  simp [is_wf_equations, is_wf_equations_core, is_equations_node, macro_num_args,
    bind, Except.bind, pure, Except.pure, h2]

theorem is_wf_equations_core_eq (p : Option pos_info) (h : equations_header) (args : List expr) :
    is_wf_equations_core (expr.Macro p (.equations_macro_cell h) args)
      = is_wf_equations (expr.Macro p (.equations_macro_cell h) args) := by
  simp [is_wf_equations, is_equations_node]

theorem equations_size_snoc (p : Option pos_info) (h : equations_header) (init : List expr)
    (last : expr) (hne : init ≠ []) (hlen : init.length + 1 < unsigned_size) :
    equations_size (expr.Macro p (.equations_macro_cell h) (init ++ [last]))
      = .ok (if is_lambda_equation last then init.length + 1 else init.length) := by
  have hpos : 0 < init.length := List.length_pos.mpr hne
  have hsub : unsigned_sub (init.length + 1) 1 = init.length :=
    unsigned_sub_one _ (by omega) hlen
  unfold equations_size
  rw [is_wf_equations_core_eq, is_wf_equations_snoc p h init last hne hlen]
  cases hl : is_lambda_equation last <;>
    simp [is_equations_node, macro_num_args, bind, Except.bind, pure, Except.pure, hsub]

theorem equations_size_short (p : Option pos_info) (h : equations_header) (args : List expr)
    (hlen : args.length < 2) :
    equations_size (expr.Macro p (.equations_macro_cell h) args) = .ok args.length := by
  unfold equations_size
  rw [is_wf_equations_core_eq, is_wf_equations_short p h args hlen]
  simp [is_equations_node, macro_num_args, bind, Except.bind, pure, Except.pure]

theorem equations_wf_tactics_snoc (p : Option pos_info) (h : equations_header)
    (init : List expr) (last : expr) (hne : init ≠ [])
    (hlen : init.length + 1 < unsigned_size) (hlast : is_lambda_equation last = false) :
    equations_wf_tactics (expr.Macro p (.equations_macro_cell h) (init ++ [last]))
      = .ok last := by
  have hpos : 0 < init.length := List.length_pos.mpr hne
  have hsub : unsigned_sub (init.length + 1) 1 = init.length :=
    unsigned_sub_one _ (by omega) hlen
  unfold equations_wf_tactics
  rw [is_wf_equations_snoc p h init last hne hlen]
  simp [hlast, macro_num_args, macro_arg, bind, Except.bind, pure, Except.pure, hsub]

theorem to_equations_loop_eq (p : Option pos_info) (d : macro_definition) (args : List expr) :
    ∀ (k i : Nat) (buf : List expr), i + k ≤ args.length →
      to_equations_loop (expr.Macro p d args) k i buf = .ok (buf ++ (args.drop i).take k) := by
  intro k
  induction k with
  | zero => intro i buf _; simp [to_equations_loop, pure, Except.pure]
  | succ k ih =>
    intro i buf hle
    have hi : i < args.length := by omega
    have hget : args.get? i = some args[i] := by simp [List.getElem?_eq_getElem hi]
    have hdrop : args.drop i = args[i] :: args.drop (i + 1) := List.drop_eq_getElem_cons hi
    simp only [to_equations_loop, macro_arg, hget, bind, Except.bind, pure, Except.pure]
    rw [ih (i + 1) _ (by omega), hdrop, List.take_succ_cons]
    simp

theorem to_equations_snoc (p : Option pos_info) (h : equations_header) (init : List expr)
    (last : expr) (hne : init ≠ []) (hlen : init.length + 1 < unsigned_size) :
    to_equations (expr.Macro p (.equations_macro_cell h) (init ++ [last])) []
      = .ok (if is_lambda_equation last then init ++ [last] else init) := by
  unfold to_equations
  rw [equations_size_snoc p h init last hne hlen]
  cases hl : is_lambda_equation last
  · simp only [is_equations_node, bind, Except.bind]
    simp [to_equations_loop_eq p _ (init ++ [last]) init.length 0 [] (by simp), pure,
      Except.pure]
  · simp only [is_equations_node, bind, Except.bind]
    simp [to_equations_loop_eq p _ (init ++ [last]) (init.length + 1) 0 [] (by simp), pure,
      Except.pure]

theorem to_equations_short (p : Option pos_info) (h : equations_header) (args : List expr)
    (hlen : args.length < 2) :
    to_equations (expr.Macro p (.equations_macro_cell h) args) [] = .ok args := by
  unfold to_equations
  rw [equations_size_short p h args hlen]
  simp only [is_equations_node, bind, Except.bind]
  simp [to_equations_loop_eq p _ args args.length 0 [] (by simp), pure, Except.pure]

theorem array_slice_snoc (init : List expr) (last : expr) :
    array_slice init.length (init ++ [last]) = .ok init := by
  simp [array_slice, pure, Except.pure]

theorem array_get_snoc (init : List expr) (last : expr) :
    array_get (init ++ [last]) init.length = .ok last := by
  simp [array_get, pure, Except.pure]

theorem mk_equations_ok (h : equations_header) (cs : List expr) (hn : 0 < h.m_num_fns)
    (hne : cs ≠ [])
    (hcs : ∀ c ∈ cs, is_lambda_equation c = true ∨ is_lambda_no_equation c = true) :
    mk_equations h cs.length cs = .ok (expr.Macro none (.equations_macro_cell h) cs) := by
  have hpos : 0 < cs.length := List.length_pos.mpr hne
  have hall : (cs.all fun e => is_lambda_equation e || is_lambda_no_equation e) = true := by
    simpa [List.all_eq_true] using hcs
  simp [mk_equations, hn, hpos, array_slice_length, hall, mk_macro_length, bind, Except.bind,
    pure, Except.pure]

theorem mk_equations_with_tacs_ok (h : equations_header) (cs : List expr) (tacs : expr)
    (hn : 0 < h.m_num_fns) (hne : cs ≠ []) (hcs : ∀ c ∈ cs, is_lambda_equation c = true) :
    mk_equations_with_tacs h cs.length cs tacs
      = .ok (expr.Macro none (.equations_macro_cell h) (cs ++ [tacs])) := by
  have hpos : 0 < cs.length := List.length_pos.mpr hne
  have hall : cs.all is_lambda_equation = true := by
    simpa [List.all_eq_true] using hcs
  have hm := mk_macro_length (macro_definition_cell.equations_macro_cell h) (cs ++ [tacs])
  simp only [List.length_append, List.length_singleton] at hm
  simp [mk_equations_with_tacs, hn, hpos, array_slice_length, hall, hm, bind, Except.bind,
    pure, Except.pure]

theorem mk_equations_with_tacs_snoc (h : equations_header) (cs : List expr) (tacs : expr)
    (hn : 0 < h.m_num_fns) (hne : cs ≠ []) (hcs : ∀ c ∈ cs, is_lambda_equation c = true) :
    mk_equations_with_tacs h cs.length (cs ++ [tacs]) tacs
      = .ok (expr.Macro none (.equations_macro_cell h) (cs ++ [tacs])) := by
  have hpos : 0 < cs.length := List.length_pos.mpr hne
  have hall : cs.all is_lambda_equation = true := by
    simpa [List.all_eq_true] using hcs
  have hm := mk_macro_length (macro_definition_cell.equations_macro_cell h) (cs ++ [tacs])
  simp only [List.length_append, List.length_singleton] at hm
  simp [mk_equations_with_tacs, hn, hpos, array_slice_snoc, hall, hm, bind, Except.bind,
    pure, Except.pure]

theorem read_equations_header_write (h : equations_header) (d : deserializer) :
    read_equations_header ((equations_macro_cell_write h []).tail ++ d) = .ok (h, d) := by
  simp [read_equations_header, equations_macro_cell_write, read_unsigned, read_bool, read_names,
    bind, Except.bind, pure, Except.pure]

theorem read_macro_write (h : equations_header) (num : Nat) (args : List expr) :
    read_macro (equations_macro_cell_write h []) num args
      = equations_macro_deserializer (equations_macro_cell_write h []).tail num args := by
  simp [ read_macro, equations_macro_cell_write, read_string, macro_deserializers, List.lookup,
    g_equations_opcode, bind, Except.bind, pure, Except.pure]

/-- The reader applied to the written header of `h` and a non-empty children array
`init ++ [last]`. -/
theorem equations_macro_deserializer_snoc (h : equations_header) (init : List expr) (last : expr)
    (hn : 0 < h.m_num_fns) (hlen : init.length + 1 < unsigned_size) :
    equations_macro_deserializer (equations_macro_cell_write h []).tail (init.length + 1)
        (init ++ [last])
      = if (!is_lambda_equation last && !is_lambda_no_equation last) = true then
          (if init.length + 1 ≤ 1 then .error error.corrupted_stream_exception
           else (mk_equations_with_tacs h init.length (init ++ [last]) last).map
             fun r => (r, []))
        else (mk_equations h (init.length + 1) (init ++ [last])).map fun r => (r, []) := by
  have hsub : unsigned_sub (init.length + 1) 1 = init.length :=
    unsigned_sub_one _ (by omega) hlen
  have hrd := read_equations_header_write h []
  simp only [List.append_nil] at hrd
  have hn0 : ¬ h.m_num_fns = 0 := by omega
  unfold equations_macro_deserializer
  simp only [hrd, bind, Except.bind, hsub, array_get_snoc]
  by_cases hs : (!is_lambda_equation last && !is_lambda_no_equation last) = true
  · by_cases h1 : init.length + 1 ≤ 1
    · simp [hs, h1, hn0, pure, Except.pure, throw, throwThe, MonadExceptOf.throw]
    · simp [hs, h1, hn0, pure, Except.pure, Except.map]
  · simp [hs, hn0, pure, Except.pure, Except.map]

theorem snoc_of_ne_nil (cs : List expr) (hne : cs ≠ []) :
    ∃ init last, cs = init ++ [last] :=
  ⟨cs.dropLast, cs.getLast hne, (List.dropLast_append_getLast hne).symm⟩

theorem is_wf_equations_returns (p : Option pos_info) (h : equations_header) (args : List expr)
    (hlen : args.length < unsigned_size) :
    ∃ b, is_wf_equations (expr.Macro p (.equations_macro_cell h) args) = .ok b := by
  by_cases h2 : args.length < 2
  · exact ⟨false, is_wf_equations_short p h args h2⟩
  · have hne : args ≠ [] := by
      intro h0
      simp [h0] at h2
    obtain ⟨init, last, rfl⟩ := snoc_of_ne_nil args hne
    have hi : init ≠ [] := by
      intro h0
      simp [h0] at h2
    simp only [List.length_append, List.length_singleton] at hlen
    exact ⟨_, is_wf_equations_snoc p h init last hi hlen⟩

theorem equations_size_returns (p : Option pos_info) (h : equations_header) (args : List expr)
    (hlen : args.length < unsigned_size) :
    ∃ n, equations_size (expr.Macro p (.equations_macro_cell h) args) = .ok n := by
  by_cases h2 : args.length < 2
  · exact ⟨_, equations_size_short p h args h2⟩
  · have hne : args ≠ [] := by
      intro h0
      simp [h0] at h2
    obtain ⟨init, last, rfl⟩ := snoc_of_ne_nil args hne
    have hi : init ≠ [] := by
      intro h0
      simp [h0] at h2
    simp only [List.length_append, List.length_singleton] at hlen
    exact ⟨_, equations_size_snoc p h init last hi hlen⟩

theorem get_equations_header_node (p : Option pos_info) (h : equations_header)
    (args : List expr) :
    get_equations_header (expr.Macro p (.equations_macro_cell h) args) = .ok h := by
  simp [get_equations_header, is_equations_node, macro_def, bind, Except.bind, pure, Except.pure]

/-- The reader on the written header of a node whose last child is equation-shaped or
no-equation-shaped rebuilds the node through the constructor without proof script. -/
theorem read_macro_plain (h : equations_header) (cs : List expr) (hn : 0 < h.m_num_fns)
    (hne : cs ≠ []) (hlen : cs.length < unsigned_size)
    (hcs : ∀ c ∈ cs, is_lambda_equation c = true ∨ is_lambda_no_equation c = true) :
    read_macro (equations_macro_cell_write h []) cs.length cs
      = .ok (expr.Macro none (.equations_macro_cell h) cs, []) := by
  have hmk := mk_equations_ok h cs hn hne hcs
  obtain ⟨init, last, rfl⟩ := snoc_of_ne_nil cs hne
  simp only [List.length_append, List.length_singleton] at hlen hmk ⊢
  have hlast : ¬ (!is_lambda_equation last && !is_lambda_no_equation last) = true := by
    rcases hcs last (by simp) with hl | hl <;> simp [hl]
  rw [read_macro_write, equations_macro_deserializer_snoc h init last hn hlen, if_neg hlast, hmk]
  rfl

/-- The reader on the written header of a node built with a proof script rebuilds the node. -/
theorem read_macro_tacs (h : equations_header) (cs : List expr) (tacs : expr)
    (hn : 0 < h.m_num_fns) (hne : cs ≠ []) (hlen : cs.length + 1 < unsigned_size)
    (hcs : ∀ c ∈ cs, is_lambda_equation c = true) :
    read_macro (equations_macro_cell_write h []) (cs.length + 1) (cs ++ [tacs])
      = .ok (expr.Macro none (.equations_macro_cell h) (cs ++ [tacs]), []) := by
  have hpos : 0 < cs.length := List.length_pos.mpr hne
  rw [read_macro_write, equations_macro_deserializer_snoc h cs tacs hn hlen]
  by_cases hs : (!is_lambda_equation tacs && !is_lambda_no_equation tacs) = true
  · have h1 : ¬ cs.length + 1 ≤ 1 := by omega
    rw [if_pos hs, if_neg h1, mk_equations_with_tacs_snoc h cs tacs hn hne hcs]
    rfl
  · have hall : ∀ c ∈ cs ++ [tacs],
        is_lambda_equation c = true ∨ is_lambda_no_equation c = true := by
      intro c hc
      rcases List.mem_append.mp hc with hc | hc
      · exact Or.inl (hcs c hc)
      · have hct : c = tacs := by simpa using hc
        subst hct
        cases h1 : is_lambda_equation c <;> cases h2 : is_lambda_no_equation c <;>
          simp [h1, h2] at hs ⊢
    have hmk := mk_equations_ok h (cs ++ [tacs]) hn (by simp) hall
    simp only [List.length_append, List.length_singleton] at hmk
    rw [if_neg hs, hmk]
    rfl

/-- C1: serialization round trip. For a header with `num_fns > 0` and a non-empty list `cs`
of children, the node built by either constructor (without proof script from equation-shaped
or no-equation-shaped children; with an arbitrary proof script `tacs` from lambda-equations)
is rebuilt by the registered reader from the stream written by its macro cell and its
children array: the reader succeeds, consumes the whole stream, and returns a node equal to
the original, with the same header and children, on which `equations_size` and
`is_wf_equations` return the same values as on the original. -/
theorem equations_serialization_round_trip (h : equations_header) (cs : List expr) (tacs : expr)
    (hn : 0 < h.m_num_fns) (hne : cs ≠ []) (hlen : cs.length + 1 < unsigned_size) :
    ((∀ c ∈ cs, is_lambda_equation c = true ∨ is_lambda_no_equation c = true) →
      ∃ e d s args r, mk_equations h cs.length cs = .ok e ∧
        macro_def e = .ok d ∧ d.write [] = some s ∧ macro_args e = .ok args ∧
        read_macro s args.length args = .ok (r, []) ∧ r = e ∧
        get_equations_header e = .ok h ∧ get_equations_header r = .ok h ∧
        args = cs ∧ macro_args r = .ok cs ∧
        (∃ n, equations_size e = .ok n ∧ equations_size r = .ok n) ∧
        (∃ b, is_wf_equations e = .ok b ∧ is_wf_equations r = .ok b)) ∧
    ((∀ c ∈ cs, is_lambda_equation c = true) →
      ∃ e d s args r, mk_equations_with_tacs h cs.length cs tacs = .ok e ∧
        macro_def e = .ok d ∧ d.write [] = some s ∧ macro_args e = .ok args ∧
        read_macro s args.length args = .ok (r, []) ∧ r = e ∧
        get_equations_header e = .ok h ∧ get_equations_header r = .ok h ∧
        args = cs ++ [tacs] ∧ macro_args r = .ok (cs ++ [tacs]) ∧
        (∃ n, equations_size e = .ok n ∧ equations_size r = .ok n) ∧
        (∃ b, is_wf_equations e = .ok b ∧ is_wf_equations r = .ok b)) := by
  constructor
  · intro hcs
    obtain ⟨n, hsz⟩ := equations_size_returns none h cs (by omega)
    obtain ⟨b, hwf⟩ := is_wf_equations_returns none h cs (by omega)
    exact ⟨_, _, _, cs, _, mk_equations_ok h cs hn hne hcs, rfl, rfl, rfl,
      read_macro_plain h cs hn hne (by omega) hcs, rfl, get_equations_header_node _ _ _,
      get_equations_header_node _ _ _, rfl, rfl, ⟨n, hsz, hsz⟩, ⟨b, hwf, hwf⟩⟩
  · intro hcs
    have hl : (cs ++ [tacs]).length < unsigned_size := by simpa using hlen
    obtain ⟨n, hsz⟩ := equations_size_returns none h (cs ++ [tacs]) hl
    obtain ⟨b, hwf⟩ := is_wf_equations_returns none h (cs ++ [tacs]) hl
    have hrd := read_macro_tacs h cs tacs hn hne hlen hcs
    exact ⟨_, _, _, cs ++ [tacs], _, mk_equations_with_tacs_ok h cs tacs hn hne hcs, rfl, rfl,
      rfl, by simpa using hrd, rfl, get_equations_header_node _ _ _,
      get_equations_header_node _ _ _, rfl, rfl, ⟨n, hsz, hsz⟩, ⟨b, hwf, hwf⟩⟩

theorem mk_equations_result_loop_eq (rs : List expr) :
    ∀ (i : Nat) (r : expr), i ≤ rs.length →
      mk_equations_result_loop rs i r = .ok ((rs.take i).foldr mk_app r) := by
  intro i
  induction i with
  | zero => intro r _; simp [mk_equations_result_loop, pure, Except.pure]
  | succ i ih =>
    intro r hle
    have hi : i < rs.length := by omega
    have hget : rs.get? i = some rs[i] := by simp [List.getElem?_eq_getElem hi]
    simp only [mk_equations_result_loop, array_get, hget, bind, Except.bind, pure, Except.pure]
    rw [ih _ (by omega), List.take_succ, List.getElem?_eq_getElem hi]
    simp only [Option.toList, List.foldr_append, List.foldr_cons, List.foldr_nil]

theorem get_equations_result_loop_eq (last : expr) :
    ∀ (init buf : List expr),
      get_equations_result_loop (init.length + 1) (init.foldr mk_app last) buf
        = .ok (last, buf ++ init) := by
  intro init
  induction init with
  | nil => intro buf; simp [get_equations_result_loop, pure, Except.pure]
  | cons x xs ih =>
    intro buf
    simp only [List.length_cons, List.foldr_cons, get_equations_result_loop, mk_app, is_app,
      app_fn, app_arg, bind, Except.bind, pure, Except.pure]
    have := ih (buf ++ [x])
    simp only [mk_app] at this
    simp [this]

theorem get_equations_result_size_tagged (n : Nat) (e : expr) (hlen : n < unsigned_size) :
    get_equations_result_size (expr.MData (set_nat [] g_equations_result_name n) e) = .ok n := by
  simp [get_equations_result_size, mdata_data, get_nat, set_nat, find, get_small_value, hlen,
    bind, Except.bind, pure, Except.pure]

theorem mk_equations_result_snoc (init : List expr) (last : expr)
    (hlen : init.length + 1 < unsigned_size) :
    mk_equations_result (init.length + 1) (init ++ [last])
      = .ok (expr.MData (set_nat [] g_equations_result_name (init.length + 1))
          (init.foldr mk_app last)) := by
  have hsub : unsigned_sub (init.length + 1) 1 = init.length :=
    unsigned_sub_one _ (by omega) hlen
  have hloop := mk_equations_result_loop_eq (init ++ [last]) init.length last (by simp)
  simp only [List.take_left] at hloop
  unfold mk_equations_result
  simp only [hsub, array_get_snoc, gt_iff_lt, Nat.zero_lt_succ, decide_True, Bool.not_true]
  simp only [bind, Except.bind, pure, Except.pure]
  rw [hloop]
  simp only [mk_mdata, get_equations_result_size_tagged _ _ hlen]
  simp

theorem get_equations_result_buffer_snoc (init : List expr) (last : expr)
    (hlen : init.length + 1 < unsigned_size) :
    get_equations_result_buffer (expr.MData (set_nat [] g_equations_result_name
        (init.length + 1)) (init.foldr mk_app last)) [] = .ok (init ++ [last]) := by
  have htag : is_equations_result (expr.MData (set_nat [] g_equations_result_name
      (init.length + 1)) (init.foldr mk_app last)) = true := by
    simp [is_equations_result, get_nat, set_nat, find]
  unfold get_equations_result_buffer
  simp only [htag, get_equations_result_size_tagged _ _ hlen, mdata_expr, bind, Except.bind,
    pure, Except.pure]
  rw [get_equations_result_loop_eq]
  simp

/-- C2: result-tuple round trip. For every non-empty list `rs` of `n` expressions (with `n`
an `unsigned`), `mk_equations_result(n, rs)` returns a node `e` with `is_equations_result(e)`,
`get_equations_result_size(e) = n` and `get_equations_result(e, i) = rs[i]` for every
`i < n`. -/
theorem mk_equations_result_round_trip (rs : List expr) (hne : rs ≠ [])
    (hlen : rs.length < unsigned_size) :
    ∃ e, mk_equations_result rs.length rs = .ok e ∧ is_equations_result e = true ∧
      get_equations_result_size e = .ok rs.length ∧
      ∀ (i : Nat) (hi : i < rs.length), get_equations_result e i = .ok rs[i] := by
  obtain ⟨init, last, rfl⟩ := snoc_of_ne_nil rs hne
  simp only [List.length_append, List.length_singleton] at hlen ⊢
  refine ⟨_, mk_equations_result_snoc init last hlen, ?_, ?_, ?_⟩
  · simp [is_equations_result, get_nat, set_nat, find]
  · exact get_equations_result_size_tagged _ _ hlen
  · intro i hi
    have hi2 : i < (init ++ [last]).length := by simpa using hi
    have hget : (init ++ [last]).get? i = some (init ++ [last])[i] := by
      simp [List.getElem?_eq_getElem hi2]
    simp only [get_equations_result, get_equations_result_buffer_snoc init last hlen, bind,
      Except.bind, hget, pure, Except.pure]

/-- C3 (evaluation at the failing input): the node built without proof script from
`[λx. equation(f x, 0, false), λx. no_equation()]` is classified as well-founded, its
reported size is 1 and `to_equations` drops the no-equation child. -/
theorem mk_equations_trailing_no_equation_is_wf :
    mk_equations example_header 2 [example_eq1, example_eq2]
      = .ok (expr.Macro none (.equations_macro_cell example_header) [example_eq1, example_eq2]) ∧
    is_lambda_no_equation example_eq2 = true ∧
    is_wf_equations
      (expr.Macro none (.equations_macro_cell example_header) [example_eq1, example_eq2])
      = .ok true ∧
    equations_size
      (expr.Macro none (.equations_macro_cell example_header) [example_eq1, example_eq2])
      = .ok 1 ∧
    to_equations
      (expr.Macro none (.equations_macro_cell example_header) [example_eq1, example_eq2]) []
      = .ok [example_eq1] :=
  ⟨rfl, rfl, rfl, rfl, rfl⟩

/-- C4: shape disambiguation with a proof script. For a header with `num_fns > 0`, a non-empty
list `cs` of lambda-equations and a `tacs` that is neither a lambda-equation nor a
lambda-no-equation, `mk_equations(h, cs, tacs)` returns a node `e` with
`is_wf_equations(e) = true`, `equations_size(e) = length(cs)`, `equations_wf_tactics(e) = tacs`
and `to_equations(e) = cs`; and every equations node with exactly one child has
`is_wf_equations = false`. -/
theorem mk_equations_with_tacs_shape (h : equations_header) (cs : List expr) (tacs : expr)
    (hn : 0 < h.m_num_fns) (hne : cs ≠ []) (hlen : cs.length + 1 < unsigned_size)
    (hcs : ∀ c ∈ cs, is_lambda_equation c = true)
    (ht : is_lambda_equation tacs = false) (_ht : is_lambda_no_equation tacs = false) :
    (∃ e, mk_equations_with_tacs h cs.length cs tacs = .ok e ∧
      is_wf_equations e = .ok true ∧ equations_size e = .ok cs.length ∧
      equations_wf_tactics e = .ok tacs ∧ to_equations e [] = .ok cs) ∧
    (∀ (p : Option pos_info) (h1 : equations_header) (c : expr),
      is_wf_equations (expr.Macro p (.equations_macro_cell h1) [c]) = .ok false) := by
  refine ⟨⟨_, mk_equations_with_tacs_ok h cs tacs hn hne hcs, ?_, ?_, ?_, ?_⟩, ?_⟩
  · rw [is_wf_equations_snoc none h cs tacs hne hlen, ht]
    rfl
  · rw [equations_size_snoc none h cs tacs hne hlen, ht]
    rfl
  · exact equations_wf_tactics_snoc none h cs tacs hne hlen ht
  · rw [to_equations_snoc none h cs tacs hne hlen, ht]
    rfl
  · intro p h1 c
    exact is_wf_equations_short p h1 [c] (by simp)

/-- C5: corruption rejection. Whenever the header fields decode to `h`, the reader raises
`corrupted_stream_exception` (and so returns no node) if the children array is empty, or
`h.num_fns = 0`, or there is exactly one child and it is neither a lambda-equation nor a
lambda-no-equation. -/
theorem equations_macro_deserializer_rejects (d d1 : deserializer) (h : equations_header)
    (args : List expr) (hrd : read_equations_header d = .ok (h, d1))
    (hbad : args = [] ∨ h.m_num_fns = 0 ∨
      ∃ c, args = [c] ∧ is_lambda_equation c = false ∧ is_lambda_no_equation c = false) :
    equations_macro_deserializer d args.length args
      = .error error.corrupted_stream_exception := by
  unfold equations_macro_deserializer
  simp only [hrd, bind, Except.bind]
  rcases hbad with h0 | h0 | ⟨c, hc, h1, h2⟩
  · rw [if_pos (by simp [h0])]
  · rw [if_pos (by simp [h0])]
  · subst hc
    by_cases hz : h.m_num_fns = 0
    · rw [if_pos (by simp [hz])]
    · have hsub : unsigned_sub [c].length 1 = 0 := by
        unfold unsigned_sub unsigned_size
        simp
      rw [if_neg (by simp [hz]), hsub]
      simp only [pure, Except.pure, array_get, List.get?]
      simp only [h1, h2, pure, Except.pure]
      simp

/-- C6: tag independence. `mk_equation(l, r, true)` and `mk_equation(l, r, false)` are
different nodes with different metadata maps, and `equation_lhs` returns `l` and
`equation_rhs` returns `r` on both. -/
theorem mk_equation_tag_independence (l r : expr) :
    mk_equation l r true ≠ mk_equation l r false ∧
    mdata_data (mk_equation l r true) = .ok g_equation_ignore_if_unused ∧
    mdata_data (mk_equation l r false) = .ok g_equation ∧
    g_equation_ignore_if_unused ≠ g_equation ∧
    equation_lhs (mk_equation l r true) = .ok l ∧
    equation_rhs (mk_equation l r true) = .ok r ∧
    equation_lhs (mk_equation l r false) = .ok l ∧
    equation_rhs (mk_equation l r false) = .ok r := by
  refine ⟨?_, rfl, rfl, by decide, rfl, rfl, rfl, rfl⟩
  simp [mk_equation, mk_mdata, g_equation, g_equation_ignore_if_unused, set_bool]

/-- C7 (evaluation at the failing input): the node built from the single child
`λx. equation(f x, 0, false)` is not well-founded, but updating its children to
`[λx. equation(f x, 0, false), λx. no_equation()]` gives a node classified as well-founded. -/
theorem update_equations_changes_classification :
    mk_equations example_header 1 [example_eq1]
      = .ok (expr.Macro none (.equations_macro_cell example_header) [example_eq1]) ∧
    is_wf_equations (expr.Macro none (.equations_macro_cell example_header) [example_eq1])
      = .ok false ∧
    is_lambda_equation example_eq1 = true ∧ is_lambda_no_equation example_eq2 = true ∧
    update_equations (expr.Macro none (.equations_macro_cell example_header) [example_eq1])
        [example_eq1, example_eq2]
      = .ok (expr.Macro none (.equations_macro_cell example_header)
          [example_eq1, example_eq2]) ∧
    is_wf_equations
      (expr.Macro none (.equations_macro_cell example_header) [example_eq1, example_eq2])
      = .ok true :=
  ⟨rfl, rfl, rfl, rfl, rfl, rfl⟩

/-- C8 (evaluation at the failing input): on the node built without proof script from
`[λx. no_equation(), λx. no_equation()]`, updating the header fails the assertion of the
constructor with proof script. -/
theorem update_equations_header_violates_precondition :
    mk_equations example_header 2 [example_eq2, example_eq2]
      = .ok (expr.Macro none (.equations_macro_cell example_header)
          [example_eq2, example_eq2]) ∧
    0 < example_header.m_num_fns ∧
    update_equations_header
        (expr.Macro none (.equations_macro_cell example_header) [example_eq2, example_eq2])
        example_header
      = .error error.assertion_violation :=
  ⟨rfl, by decide, rfl⟩

/-- C9: `remove_wf_annotation_from_equations` drops exactly the proof script. For a header
with `num_fns > 0`, a non-empty list `cs` of lambda-equations and a `tacs` that is not
equation-shaped, applying it to `mk_equations(h, cs, tacs)` returns a node with header `h`
and children `cs`, namely `mk_equations(h, cs)` with the source position of the original; and
on every node with `is_wf_equations = false` it returns the node itself. -/
theorem remove_wf_annotation_from_equations_drops_tacs (h : equations_header)
    (cs : List expr) (tacs : expr)
    (hn : 0 < h.m_num_fns) (hne : cs ≠ []) (hlen : cs.length + 1 < unsigned_size)
    (hcs : ∀ c ∈ cs, is_lambda_equation c = true)
    (ht : is_lambda_equation tacs = false) (_ht : is_lambda_no_equation tacs = false) :
    (∃ e r e0, mk_equations_with_tacs h cs.length cs tacs = .ok e ∧
      remove_wf_annotation_from_equations e = .ok r ∧
      get_equations_header r = .ok h ∧ macro_args r = .ok cs ∧
      mk_equations h cs.length cs = .ok e0 ∧ r = copy_pos e e0) ∧
    (∀ e : expr, is_wf_equations e = .ok false →
      remove_wf_annotation_from_equations e = .ok e) := by
  have hcs2 : ∀ c ∈ cs, is_lambda_equation c = true ∨ is_lambda_no_equation c = true :=
    fun c hc => Or.inl (hcs c hc)
  constructor
  · refine ⟨_, expr.Macro none (.equations_macro_cell h) cs, _,
      mk_equations_with_tacs_ok h cs tacs hn hne hcs, ?_, get_equations_header_node _ _ _, rfl,
      mk_equations_ok h cs hn hne hcs2, rfl⟩
    unfold remove_wf_annotation_from_equations
    rw [is_wf_equations_snoc none h cs tacs hne hlen, to_equations_snoc none h cs tacs hne hlen,
      get_equations_header_node, ht]
    simp only [bind, Except.bind, Bool.not_false, if_true, Bool.false_eq_true, if_false,
      mk_equations_ok h cs hn hne hcs2]
    rfl
  · intro e he
    unfold remove_wf_annotation_from_equations
    rw [he]
    rfl

theorem mk_equations_with_tacs_fails (h : equations_header) (cs : List expr) (tacs : expr)
    (hbad : h.m_num_fns = 0 ∨ cs = [] ∨ ∃ c ∈ cs, is_lambda_equation c = false) :
    mk_equations_with_tacs h cs.length cs tacs = .error error.assertion_violation := by
  unfold mk_equations_with_tacs
  by_cases hn : h.m_num_fns = 0
  · simp [hn, bind, Except.bind, throw, throwThe, MonadExceptOf.throw]
  · by_cases hne : cs = []
    · have hpos : 0 < h.m_num_fns := by omega
      simp [hne, hpos, bind, Except.bind, throw, throwThe, MonadExceptOf.throw, pure,
        Except.pure]
    · rcases hbad with h0 | h0 | ⟨c, hc, hcf⟩
      · exact absurd h0 hn
      · exact absurd h0 hne
      · have hpos : 0 < h.m_num_fns := by omega
        have hlen : 0 < cs.length := List.length_pos.mpr hne
        have hall : cs.all is_lambda_equation = false := by
          rw [List.all_eq_false]
          exact ⟨c, hc, by simp [hcf]⟩
        simp [hpos, hlen, array_slice_length, hall, bind, Except.bind, throw, throwThe,
          MonadExceptOf.throw, pure, Except.pure]

/-- C10: the constructor with proof script checks its preconditions. `mk_equations(h, cs, tacs)`
fails its assertion, building no node, whenever `h.num_fns = 0`, `cs` is empty or some element
of `cs` is not a lambda-equation; it returns the node with children `cs ++ [tacs]` whenever
none of these holds; in particular it fails for
`cs = [λx. equation(f x, 0, false), λx. no_equation()]`. -/
theorem mk_equations_with_tacs_precondition (h : equations_header) (cs : List expr)
    (tacs : expr) :
    ((h.m_num_fns = 0 ∨ cs = [] ∨ ∃ c ∈ cs, is_lambda_equation c = false) →
      mk_equations_with_tacs h cs.length cs tacs = .error error.assertion_violation) ∧
    (¬ (h.m_num_fns = 0 ∨ cs = [] ∨ ∃ c ∈ cs, is_lambda_equation c = false) →
      mk_equations_with_tacs h cs.length cs tacs
        = .ok (expr.Macro none (.equations_macro_cell h) (cs ++ [tacs]))) ∧
    mk_equations_with_tacs h 2 [example_eq1, example_eq2] tacs
      = .error error.assertion_violation := by
  refine ⟨mk_equations_with_tacs_fails h cs tacs, ?_, ?_⟩
  · intro hgood
    have hn : 0 < h.m_num_fns := by
      rcases Nat.eq_zero_or_pos h.m_num_fns with h0 | h0
      · exact absurd (Or.inl h0) hgood
      · exact h0
    have hne : cs ≠ [] := fun h0 => hgood (Or.inr (Or.inl h0))
    have hcs : ∀ c ∈ cs, is_lambda_equation c = true := by
      intro c hc
      cases hl : is_lambda_equation c
      · exact absurd (Or.inr (Or.inr ⟨c, hc, hl⟩)) hgood
      · rfl
    exact mk_equations_with_tacs_ok h cs tacs hn hne hcs
  · exact mk_equations_with_tacs_fails h [example_eq1, example_eq2] tacs
      (Or.inr (Or.inr ⟨example_eq2, by simp, rfl⟩))

theorem equations_serialization_round_trip_witness :
    (0 < example_header.m_num_fns ∧ [example_eq1, example_eq2] ≠ [] ∧
      [example_eq1, example_eq2].length + 1 < unsigned_size ∧
      ∀ c ∈ [example_eq1, example_eq2],
        is_lambda_equation c = true ∨ is_lambda_no_equation c = true) ∧
    ∃ e d s args r,
      mk_equations example_header [example_eq1, example_eq2].length [example_eq1, example_eq2]
        = .ok e ∧
      macro_def e = .ok d ∧ d.write [] = some s ∧ macro_args e = .ok args ∧
      read_macro s args.length args = .ok (r, []) ∧ r = e ∧
      get_equations_header e = .ok example_header ∧
      get_equations_header r = .ok example_header ∧
      args = [example_eq1, example_eq2] ∧ macro_args r = .ok [example_eq1, example_eq2] ∧
      (∃ n, equations_size e = .ok n ∧ equations_size r = .ok n) ∧
      (∃ b, is_wf_equations e = .ok b ∧ is_wf_equations r = .ok b) :=
  have h1 : 0 < example_header.m_num_fns := by decide
  have h2 : [example_eq1, example_eq2] ≠ [] := by simp
  have h3 : [example_eq1, example_eq2].length + 1 < unsigned_size := by
    simp [unsigned_size]
  have h4 : ∀ c ∈ [example_eq1, example_eq2],
      is_lambda_equation c = true ∨ is_lambda_no_equation c = true := by
    intro c hc
    simp only [List.mem_cons, List.mem_singleton, List.not_mem_nil, or_false] at hc
    rcases hc with hc | hc
    · exact Or.inl (by rw [hc]; rfl)
    · exact Or.inr (by rw [hc]; rfl)
  ⟨⟨h1, h2, h3, h4⟩,
    (equations_serialization_round_trip example_header [example_eq1, example_eq2] example_tacs
      h1 h2 h3).1 h4⟩

theorem mk_equations_result_round_trip_witness :
    [example_eq1, example_eq2, example_tacs] ≠ [] ∧
    [example_eq1, example_eq2, example_tacs].length < unsigned_size ∧
    ∃ e, mk_equations_result [example_eq1, example_eq2, example_tacs].length
        [example_eq1, example_eq2, example_tacs] = .ok e ∧
      is_equations_result e = true ∧
      get_equations_result_size e = .ok [example_eq1, example_eq2, example_tacs].length ∧
      ∀ (i : Nat) (hi : i < [example_eq1, example_eq2, example_tacs].length),
        get_equations_result e i = .ok [example_eq1, example_eq2, example_tacs][i] :=
  ⟨by simp, by simp [unsigned_size],
    mk_equations_result_round_trip [example_eq1, example_eq2, example_tacs] (by simp)
      (by simp [unsigned_size])⟩

theorem mk_equations_with_tacs_shape_witness :
    (0 < example_header.m_num_fns ∧ [example_eq1] ≠ [] ∧
      [example_eq1].length + 1 < unsigned_size ∧
      (∀ c ∈ [example_eq1], is_lambda_equation c = true) ∧
      is_lambda_equation example_tacs = false ∧ is_lambda_no_equation example_tacs = false) ∧
    (∃ e, mk_equations_with_tacs example_header [example_eq1].length [example_eq1] example_tacs
        = .ok e ∧
      is_wf_equations e = .ok true ∧ equations_size e = .ok [example_eq1].length ∧
      equations_wf_tactics e = .ok example_tacs ∧ to_equations e [] = .ok [example_eq1]) ∧
    (∀ (p : Option pos_info) (h1 : equations_header) (c : expr),
      is_wf_equations (expr.Macro p (.equations_macro_cell h1) [c]) = .ok false) :=
  have h1 : 0 < example_header.m_num_fns := by decide
  have h2 : [example_eq1] ≠ [] := by simp
  have h3 : [example_eq1].length + 1 < unsigned_size := by simp [unsigned_size]
  have h4 : ∀ c ∈ [example_eq1], is_lambda_equation c = true :=
    fun c hc => by rw [List.mem_singleton.mp hc]; rfl
  ⟨⟨h1, h2, h3, h4, rfl, rfl⟩,
    mk_equations_with_tacs_shape example_header [example_eq1] example_tacs h1 h2 h3 h4 rfl rfl⟩

theorem equations_macro_deserializer_rejects_witness :
    read_equations_header (equations_macro_cell_write example_header []).tail
      = .ok (example_header, []) ∧
    is_lambda_equation example_tacs = false ∧ is_lambda_no_equation example_tacs = false ∧
    equations_macro_deserializer (equations_macro_cell_write example_header []).tail
        [example_tacs].length [example_tacs]
      = .error error.corrupted_stream_exception :=
  ⟨rfl, rfl, rfl,
    equations_macro_deserializer_rejects (equations_macro_cell_write example_header []).tail []
      example_header [example_tacs] rfl (Or.inr (Or.inr ⟨example_tacs, rfl, rfl, rfl⟩))⟩

theorem remove_wf_annotation_from_equations_drops_tacs_witness :
    (0 < example_header.m_num_fns ∧ [example_eq1] ≠ [] ∧
      [example_eq1].length + 1 < unsigned_size ∧
      (∀ c ∈ [example_eq1], is_lambda_equation c = true) ∧
      is_lambda_equation example_tacs = false ∧ is_lambda_no_equation example_tacs = false) ∧
    (∃ e r e0,
      mk_equations_with_tacs example_header [example_eq1].length [example_eq1] example_tacs
        = .ok e ∧
      remove_wf_annotation_from_equations e = .ok r ∧
      get_equations_header r = .ok example_header ∧ macro_args r = .ok [example_eq1] ∧
      mk_equations example_header [example_eq1].length [example_eq1] = .ok e0 ∧
      r = copy_pos e e0) ∧
    (∀ e : expr, is_wf_equations e = .ok false →
      remove_wf_annotation_from_equations e = .ok e) :=
  have h1 : 0 < example_header.m_num_fns := by decide
  have h2 : [example_eq1] ≠ [] := by simp
  have h3 : [example_eq1].length + 1 < unsigned_size := by simp [unsigned_size]
  have h4 : ∀ c ∈ [example_eq1], is_lambda_equation c = true :=
    fun c hc => by rw [List.mem_singleton.mp hc]; rfl
  ⟨⟨h1, h2, h3, h4, rfl, rfl⟩,
    remove_wf_annotation_from_equations_drops_tacs example_header [example_eq1] example_tacs
      h1 h2 h3 h4 rfl rfl⟩

/-- C11: each recogniser accepts exactly its own constructor's tag. For all `l`, `r`, `b`:
`is_equation(mk_equation(l, r, b))` holds and `ignore_equation_if_unused` returns `b` on it;
`is_no_equation(mk_no_equation())` holds; the tags do not overlap; and `is_equation(e)` holds
iff `e` is a metadata node whose map has a boolean under the equation key. -/
theorem recognisers_accept_own_tag (l r e : expr) (b : Bool) :
    is_equation (mk_equation l r b) = true ∧
    ignore_equation_if_unused (mk_equation l r b) = .ok b ∧
    is_no_equation mk_no_equation = true ∧
    is_no_equation (mk_equation l r b) = false ∧
    is_equation mk_no_equation = false ∧
    (is_equation e = true ↔
      ∃ (m : kvmap) (a : expr) (v : Bool), e = expr.MData m a ∧
        get_bool m g_equation_name = some v) := by
  refine ⟨?_, ?_, rfl, ?_, rfl, ?_⟩
  · cases b <;> rfl
  · cases b <;> rfl
  · cases b <;> rfl
  · constructor
    · intro he
      cases e with
      | MData m a =>
        simp only [is_equation, Option.isSome_iff_exists] at he
        obtain ⟨v, hv⟩ := he
        exact ⟨m, a, v, rfl, hv⟩
      | _ => simp [is_equation] at he
    · rintro ⟨m, a, v, rfl, hv⟩
      simp [is_equation, hv]

/-- C12: as-pattern round trip. For all `l` and `r`, `is_as_pattern(mk_as_pattern(l, r))`
holds, `get_as_pattern_lhs` returns `l` and `get_as_pattern_rhs` returns `r` on it, and
`is_equation(mk_as_pattern(l, r))` is false. -/
theorem mk_as_pattern_round_trip (l r : expr) :
    is_as_pattern (mk_as_pattern l r) = true ∧
    get_as_pattern_lhs (mk_as_pattern l r) = .ok l ∧
    get_as_pattern_rhs (mk_as_pattern l r) = .ok r ∧
    is_equation (mk_as_pattern l r) = false :=
  ⟨rfl, rfl, rfl, rfl⟩

/-- C13: header equality is full field-wise equality and cell equality reduces to it.
`h1 == h2` is true iff all ten fields are equal (the name lists as ordered lists), that is
iff the two headers are the same record; lists in a different order compare unequal; and
the equality of an equations macro cell with another cell is true iff the other cell is an
equations cell whose header is equal in that sense. -/
theorem equations_header_eq_iff (h1 h2 : equations_header) (other : macro_definition_cell) :
    (equations_header_eq h1 h2 = true ↔
      (h1.m_num_fns = h2.m_num_fns ∧ h1.m_fn_names = h2.m_fn_names ∧
        h1.m_fn_actual_names = h2.m_fn_actual_names ∧ h1.m_is_private = h2.m_is_private ∧
        h1.m_is_lemma = h2.m_is_lemma ∧ h1.m_is_meta = h2.m_is_meta ∧
        h1.m_is_noncomputable = h2.m_is_noncomputable ∧ h1.m_aux_lemmas = h2.m_aux_lemmas ∧
        h1.m_prev_errors = h2.m_prev_errors ∧ h1.m_gen_code = h2.m_gen_code)) ∧
    (equations_header_eq h1 h2 = true ↔ h1 = h2) ∧
    equations_header_eq
        { h1 with m_fn_names := [name.of_string "f", name.of_string "g"] }
        { h1 with m_fn_names := [name.of_string "g", name.of_string "f"] } = false ∧
    (equations_macro_cell_eq h1 other = true ↔
      ∃ h, other = macro_definition_cell.equations_macro_cell h ∧
        equations_header_eq h1 h = true) := by
  have hfields : equations_header_eq h1 h2 = true ↔
      (h1.m_num_fns = h2.m_num_fns ∧ h1.m_fn_names = h2.m_fn_names ∧
        h1.m_fn_actual_names = h2.m_fn_actual_names ∧ h1.m_is_private = h2.m_is_private ∧
        h1.m_is_lemma = h2.m_is_lemma ∧ h1.m_is_meta = h2.m_is_meta ∧
        h1.m_is_noncomputable = h2.m_is_noncomputable ∧ h1.m_aux_lemmas = h2.m_aux_lemmas ∧
        h1.m_prev_errors = h2.m_prev_errors ∧ h1.m_gen_code = h2.m_gen_code) := by
    simp only [equations_header_eq, Bool.and_eq_true, beq_iff_eq, and_assoc]
  refine ⟨hfields, ?_, ?_, ?_⟩
  · rw [hfields]
    constructor
    · intro hf
      cases h1
      cases h2
      simp only [equations_header.mk.injEq]
      simp only at hf
      tauto
    · rintro rfl
      simp
  · simp [equations_header_eq, name.of_string]
  · cases other with
    | equations_macro_cell h => simp [equations_macro_cell_eq]
    | other_macro_cell nm => simp [equations_macro_cell_eq]


theorem mk_equations_returns_node (h : equations_header) (num : Nat) (args : List expr)
    (r : expr) (hr : mk_equations h num args = .ok r) :
    ∃ cs, r = expr.Macro none (.equations_macro_cell h) cs := by
  unfold mk_equations at hr
  simp only [ mk_macro, bind, Except.bind, pure, Except.pure] at hr
  split at hr
  · cases hr
  · split at hr
    · cases hr
    · split at hr
      · cases hr
      · rename_i es _
        split at hr
        · cases hr
        · exact ⟨es, (Except.ok.inj hr).symm⟩

theorem mk_equations_with_tacs_returns_node (h : equations_header) (num : Nat)
    (args : List expr) (tacs r : expr) (hr : mk_equations_with_tacs h num args tacs = .ok r) :
    ∃ cs, r = expr.Macro none (.equations_macro_cell h) cs := by
  unfold mk_equations_with_tacs at hr
  simp only [ mk_macro, bind, Except.bind, pure, Except.pure] at hr
  split at hr
  · cases hr
  · split at hr
    · cases hr
    · split at hr
      · cases hr
      · split at hr
        · cases hr
        · split at hr
          · cases hr
          · rename_i cs _
            exact ⟨cs, (Except.ok.inj hr).symm⟩

/-- Whatever node the reader returns carries the header decoded from the stream, and the
reader leaves exactly the stream that follows the header fields. -/
theorem equations_macro_deserializer_header (d d1 d2 : deserializer) (h : equations_header)
    (num : Nat) (args : List expr) (r : expr)
    (hrd : read_equations_header d = .ok (h, d1))
    (hres : equations_macro_deserializer d num args = .ok (r, d2)) :
    get_equations_header r = .ok h ∧ d2 = d1 := by
  unfold equations_macro_deserializer at hres
  simp only [hrd, bind, Except.bind, pure, Except.pure] at hres
  split at hres
  · cases hres
  · split at hres
    · cases hres
    · split at hres
      · split at hres
        · cases hres
        · split at hres
          · cases hres
          · rename_i v hv
            have hinj := Except.ok.inj hres
            obtain ⟨cs, hcs⟩ := mk_equations_with_tacs_returns_node _ _ _ _ _ hv
            have h1 : v = r := congrArg Prod.fst hinj
            have h2 : d1 = d2 := congrArg Prod.snd hinj
            rw [← h1, hcs]
            exact ⟨get_equations_header_node _ _ _, h2.symm⟩
      · split at hres
        · cases hres
        · rename_i v hv
          have hinj := Except.ok.inj hres
          obtain ⟨cs, hcs⟩ := mk_equations_returns_node _ _ _ _ hv
          have h1 : v = r := congrArg Prod.fst hinj
          have h2 : d1 = d2 := congrArg Prod.snd hinj
          rw [← h1, hcs]
          exact ⟨get_equations_header_node _ _ _, h2.symm⟩


/-- C14: wire-format order. For every header the writer appends exactly the opcode `"Eqns"`
and then `num_fns`, `is_private`, `is_meta`, `is_noncomputable`, `is_lemma`, `aux_lemmas`,
`prev_errors`, `gen_code`, `fn_names`, `fn_actual_names`, and nothing else (no children); the
host reader consumes the opcode and hands the rest to the registered reader; and the
registered reader consumes ten objects in that same order into the same header fields: every
node it returns from such a stream carries exactly the header made of those ten values and
it leaves the rest of the stream untouched, and it does return such a node (on a single
lambda-equation child, when `num_fns > 0`). -/
theorem equations_wire_format (h : equations_header) (s : serializer) (d : deserializer)
    (num_fns : Nat) (is_private is_meta is_noncomputable is_lemma prev_errors gen_code : Bool)
    (aux_lemmas fn_names fn_actual_names : List name) (num : Nat) (args : List expr) :
    equations_macro_cell_write h s
      = s ++ [object.string "Eqns", object.unsigned h.m_num_fns, object.bool h.m_is_private,
          object.bool h.m_is_meta, object.bool h.m_is_noncomputable,
          object.bool h.m_is_lemma, object.names h.m_aux_lemmas,
          object.bool h.m_prev_errors, object.bool h.m_gen_code,
          object.names h.m_fn_names, object.names h.m_fn_actual_names] ∧
    read_macro (object.string "Eqns" :: d) num args = equations_macro_deserializer d num args ∧
    read_equations_header
        ([object.unsigned num_fns, object.bool is_private, object.bool is_meta,
          object.bool is_noncomputable, object.bool is_lemma, object.names aux_lemmas,
          object.bool prev_errors, object.bool gen_code, object.names fn_names,
          object.names fn_actual_names] ++ d)
      = .ok ({ m_num_fns := num_fns, m_fn_names := fn_names,
               m_fn_actual_names := fn_actual_names, m_is_private := is_private,
               m_is_lemma := is_lemma, m_is_meta := is_meta,
               m_is_noncomputable := is_noncomputable, m_aux_lemmas := aux_lemmas,
               m_prev_errors := prev_errors, m_gen_code := gen_code }, d) ∧
    read_equations_header ((equations_macro_cell_write h []).tail ++ d) = .ok (h, d) ∧
    (∀ (r : expr) (d2 : deserializer),
      equations_macro_deserializer
          ([object.unsigned num_fns, object.bool is_private, object.bool is_meta,
            object.bool is_noncomputable, object.bool is_lemma, object.names aux_lemmas,
            object.bool prev_errors, object.bool gen_code, object.names fn_names,
            object.names fn_actual_names] ++ d) num args = .ok (r, d2) →
        get_equations_header r
          = .ok { m_num_fns := num_fns, m_fn_names := fn_names,
                  m_fn_actual_names := fn_actual_names, m_is_private := is_private,
                  m_is_lemma := is_lemma, m_is_meta := is_meta,
                  m_is_noncomputable := is_noncomputable, m_aux_lemmas := aux_lemmas,
                  m_prev_errors := prev_errors, m_gen_code := gen_code } ∧
        d2 = d) ∧
    (0 < num_fns →
      equations_macro_deserializer
          ([object.unsigned num_fns, object.bool is_private, object.bool is_meta,
            object.bool is_noncomputable, object.bool is_lemma, object.names aux_lemmas,
            object.bool prev_errors, object.bool gen_code, object.names fn_names,
            object.names fn_actual_names] ++ d) 1 [example_eq1]
        = .ok (expr.Macro none
            (.equations_macro_cell
              { m_num_fns := num_fns, m_fn_names := fn_names,
                m_fn_actual_names := fn_actual_names, m_is_private := is_private,
                m_is_lemma := is_lemma, m_is_meta := is_meta,
                m_is_noncomputable := is_noncomputable, m_aux_lemmas := aux_lemmas,
                m_prev_errors := prev_errors, m_gen_code := gen_code })
            [example_eq1], d)) ∧
    (0 < h.m_num_fns →
      read_macro (equations_macro_cell_write h [] ++ d) 1 [example_eq1]
        = .ok (expr.Macro none (.equations_macro_cell h) [example_eq1], d)) := by
  have hmk : ∀ h1 : equations_header, 0 < h1.m_num_fns →
      mk_equations h1 1 [example_eq1]
        = .ok (expr.Macro none (.equations_macro_cell h1) [example_eq1]) := by
    intro h1 hn
    exact mk_equations_ok h1 [example_eq1] hn (by simp)
      (fun c hc => Or.inl (by rw [List.mem_singleton.mp hc]; rfl))
  have hsub : unsigned_sub 1 1 = 0 := by
    unfold unsigned_sub unsigned_size
    omega
  have hreader : ∀ (h1 : equations_header) (d0 d1 : deserializer), 0 < h1.m_num_fns →
      read_equations_header d0 = .ok (h1, d1) →
      equations_macro_deserializer d0 1 [example_eq1]
        = .ok (expr.Macro none (.equations_macro_cell h1) [example_eq1], d1) := by
    intro h1 d0 d1 hn hrd
    have hn0 : ¬ ((1 == 0 || h1.m_num_fns == 0) = true) := by
      simp
      omega
    have hshape : ¬ ((!is_lambda_equation example_eq1 && !is_lambda_no_equation example_eq1)
        = true) := by
      decide
    unfold equations_macro_deserializer
    simp only [hrd, bind, Except.bind, pure, Except.pure]
    rw [if_neg hn0, hsub]
    simp only [array_get, List.get?, pure, Except.pure]
    rw [if_neg hshape, hmk h1 hn]
  refine ⟨?_, ?_, rfl, read_equations_header_write h d, ?_, ?_, ?_⟩
  · simp [equations_macro_cell_write, g_equations_opcode]
  · simp [ read_macro, read_string, macro_deserializers, List.lookup, g_equations_opcode, bind,
      Except.bind, pure, Except.pure]
  · intro r d2 hres
    have hrd : read_equations_header
        ([object.unsigned num_fns, object.bool is_private, object.bool is_meta,
          object.bool is_noncomputable, object.bool is_lemma, object.names aux_lemmas,
          object.bool prev_errors, object.bool gen_code, object.names fn_names,
          object.names fn_actual_names] ++ d)
        = .ok ({ m_num_fns := num_fns, m_fn_names := fn_names,
                 m_fn_actual_names := fn_actual_names, m_is_private := is_private,
                 m_is_lemma := is_lemma, m_is_meta := is_meta,
                 m_is_noncomputable := is_noncomputable, m_aux_lemmas := aux_lemmas,
                 m_prev_errors := prev_errors, m_gen_code := gen_code }, d) := rfl
    exact equations_macro_deserializer_header _ _ _ _ _ _ _ hrd hres
  · intro hn
    exact hreader _ _ d hn rfl
  · intro hn
    have hw : equations_macro_cell_write h [] ++ d
        = object.string "Eqns" :: ((equations_macro_cell_write h []).tail ++ d) := by
      simp [equations_macro_cell_write, g_equations_opcode]
    have hdisp : ∀ d0 : deserializer, read_macro (object.string "Eqns" :: d0) 1 [example_eq1]
        = equations_macro_deserializer d0 1 [example_eq1] := by
      intro d0
      simp [ read_macro, read_string, macro_deserializers, List.lookup, g_equations_opcode,
        bind, Except.bind, pure, Except.pure]
    rw [hw, hdisp]
    exact hreader h _ d hn (read_equations_header_write h d)

/-- C15: unsupported operations always fail. For every equations macro cell and all
arguments, `check_type` and `expand` raise the exception with the message
`unexpected occurrence of 'equations' expression`, and return neither a type nor an
expansion. -/
theorem equations_macro_cell_unsupported (ctx : Type) (m_header : equations_header) (e : expr)
    (c : ctx) (infer_only : Bool) :
    equations_macro_cell_check_type m_header e c infer_only
      = .error (error.exception "unexpected occurrence of 'equations' expression") ∧
    equations_macro_cell_expand m_header e c
      = .error (error.exception "unexpected occurrence of 'equations' expression") ∧
    (∀ t : expr, equations_macro_cell_check_type m_header e c infer_only ≠ .ok t) ∧
    (∀ r : Option expr, equations_macro_cell_expand m_header e c ≠ .ok r) := by
  refine ⟨rfl, rfl, ?_, ?_⟩
  · intro t ht
    have hc : equations_macro_cell_check_type m_header e c infer_only
        = .error (error.exception "unexpected occurrence of 'equations' expression") := rfl
    rw [hc] at ht
    cases ht
  · intro r hr
    have hc : equations_macro_cell_expand m_header e c
        = .error (error.exception "unexpected occurrence of 'equations' expression") := rfl
    rw [hc] at hr
    cases hr

theorem is_wf_equations_true_shape (p : Option pos_info) (h : equations_header)
    (args : List expr) (hlen : args.length < unsigned_size)
    (hwf : is_wf_equations (expr.Macro p (.equations_macro_cell h) args) = .ok true) :
    ∃ init last, args = init ++ [last] ∧ init ≠ [] ∧ is_lambda_equation last = false := by
  by_cases h2 : args.length < 2
  · rw [is_wf_equations_short p h args h2] at hwf
    cases hwf
  · have hne : args ≠ [] := by
      intro h0
      simp [h0] at h2
    obtain ⟨init, last, rfl⟩ := snoc_of_ne_nil args hne
    have hi : init ≠ [] := by
      intro h0
      simp [h0] at h2
    simp only [List.length_append, List.length_singleton] at hlen
    rw [is_wf_equations_snoc p h init last hi hlen] at hwf
    refine ⟨init, last, rfl, hi, ?_⟩
    cases hl : is_lambda_equation last
    · rfl
    · rw [hl] at hwf
      cases hwf

/-- C16: `update_equations` with a new child list on a well-founded node. For every
equations node `e` (header with `num_fns > 0`) with `is_wf_equations(e)` and every non-empty
list `cs` of lambda-equations, `update_equations(e, cs)` returns a node `r` with the header
of `e`, the proof script of `e`, `is_wf_equations(r) = true` and `to_equations(r) = cs`. -/
theorem update_equations_wf_frame (p : Option pos_info) (h : equations_header)
    (args cs : List expr) (hn : 0 < h.m_num_fns) (hargs : args.length < unsigned_size)
    (hwf : is_wf_equations (expr.Macro p (.equations_macro_cell h) args) = .ok true)
    (hne : cs ≠ []) (hlen : cs.length + 1 < unsigned_size)
    (hcs : ∀ c ∈ cs, is_lambda_equation c = true) :
    ∃ r t, update_equations (expr.Macro p (.equations_macro_cell h) args) cs = .ok r ∧
      get_equations_header (expr.Macro p (.equations_macro_cell h) args) = .ok h ∧
      get_equations_header r = .ok h ∧
      equations_wf_tactics (expr.Macro p (.equations_macro_cell h) args) = .ok t ∧
      equations_wf_tactics r = .ok t ∧
      is_wf_equations r = .ok true ∧ to_equations r [] = .ok cs := by
  obtain ⟨init, last, rfl, hi, hl⟩ := is_wf_equations_true_shape p h args hargs hwf
  simp only [List.length_append, List.length_singleton] at hargs
  have hpos : cs.isEmpty = false := by
    cases cs with
    | nil => exact absurd rfl hne
    | cons c cs => rfl
  have hupd : update_equations (expr.Macro p (.equations_macro_cell h) (init ++ [last])) cs
      = .ok (expr.Macro p (.equations_macro_cell h) (cs ++ [last])) := by
    unfold update_equations
    rw [hwf, get_equations_header_node, equations_wf_tactics_snoc p h init last hi hargs hl]
    simp only [is_equations_node, hpos, bind, Except.bind, Bool.not_true, Bool.false_eq_true,
      if_false, if_true, pure, Except.pure]
    rw [mk_equations_with_tacs_ok h cs last hn hne hcs]
    rfl
  refine ⟨_, last, hupd, get_equations_header_node _ _ _, get_equations_header_node _ _ _,
    equations_wf_tactics_snoc p h init last hi hargs hl,
    equations_wf_tactics_snoc p h cs last hne hlen hl, ?_, ?_⟩
  · rw [is_wf_equations_snoc p h cs last hne hlen, hl]
    rfl
  · rw [to_equations_snoc p h cs last hne hlen, hl]
    rfl

theorem update_equations_wf_frame_witness :
    (0 < example_header.m_num_fns ∧ [example_eq1, example_tacs].length < unsigned_size ∧
      is_wf_equations
        (expr.Macro none (.equations_macro_cell example_header) [example_eq1, example_tacs])
        = .ok true ∧
      [example_eq1, example_eq1] ≠ [] ∧
      [example_eq1, example_eq1].length + 1 < unsigned_size ∧
      ∀ c ∈ [example_eq1, example_eq1], is_lambda_equation c = true) ∧
    ∃ r t,
      update_equations
        (expr.Macro none (.equations_macro_cell example_header) [example_eq1, example_tacs])
        [example_eq1, example_eq1] = .ok r ∧
      get_equations_header
        (expr.Macro none (.equations_macro_cell example_header) [example_eq1, example_tacs])
        = .ok example_header ∧
      get_equations_header r = .ok example_header ∧
      equations_wf_tactics
        (expr.Macro none (.equations_macro_cell example_header) [example_eq1, example_tacs])
        = .ok t ∧
      equations_wf_tactics r = .ok t ∧
      is_wf_equations r = .ok true ∧ to_equations r [] = .ok [example_eq1, example_eq1] :=
  have h1 : 0 < example_header.m_num_fns := by decide
  have h2 : [example_eq1, example_tacs].length < unsigned_size := by simp [unsigned_size]
  have h3 : [example_eq1, example_eq1] ≠ [] := by simp
  have h4 : [example_eq1, example_eq1].length + 1 < unsigned_size := by simp [unsigned_size]
  have h5 : ∀ c ∈ [example_eq1, example_eq1], is_lambda_equation c = true := by
    intro c hc
    simp only [List.mem_cons, List.mem_singleton, List.not_mem_nil, or_false, or_self] at hc
    rw [hc]
    rfl
  ⟨⟨h1, h2, rfl, h3, h4, h5⟩,
    update_equations_wf_frame none example_header [example_eq1, example_tacs]
      [example_eq1, example_eq1] h1 h2 rfl h3 h4 h5⟩

/-- C17 (evaluation at the failing inputs): with a header that decodes to `num_fns = 1`, the
reader checks only the last child. On the children `[tac, λx. equation(f x, 0, false)]` it
calls the constructor without proof script, and on `[λx. no_equation(), tac]` the constructor
with proof script; both calls fail the constructor's shape assertion, and the reader ends in
that assertion failure, not in `corrupted_stream_exception`. -/
theorem equations_macro_deserializer_unchecked_children :
    read_equations_header (equations_macro_cell_write example_header []).tail
      = .ok (example_header, []) ∧
    1 ≤ example_header.m_num_fns ∧
    is_lambda_equation example_tacs = false ∧ is_lambda_no_equation example_tacs = false ∧
    mk_equations example_header 2 [example_tacs, example_eq1]
      = .error error.assertion_violation ∧
    equations_macro_deserializer (equations_macro_cell_write example_header []).tail 2
        [example_tacs, example_eq1]
      = .error error.assertion_violation ∧
    mk_equations_with_tacs example_header 1 [example_eq2, example_tacs] example_tacs
      = .error error.assertion_violation ∧
    equations_macro_deserializer (equations_macro_cell_write example_header []).tail 2
        [example_eq2, example_tacs]
      = .error error.assertion_violation :=
  ⟨rfl, by decide, rfl, rfl, rfl, rfl, rfl, rfl⟩

/-- C18 (evaluation at the failing input): on the node built without proof script from
`[λx. equation(f x, 0, false), λx. no_equation(), λx. no_equation()]`, stripping returns the
node with the first two children, which is still classified as well-founded, and stripping
again returns a different node with the first child only. -/
theorem remove_wf_annotation_from_equations_not_idempotent :
    mk_equations example_header 3 [example_eq1, example_eq2, example_eq2]
      = .ok (expr.Macro none (.equations_macro_cell example_header)
          [example_eq1, example_eq2, example_eq2]) ∧
    remove_wf_annotation_from_equations
        (expr.Macro none (.equations_macro_cell example_header)
          [example_eq1, example_eq2, example_eq2])
      = .ok (expr.Macro none (.equations_macro_cell example_header)
          [example_eq1, example_eq2]) ∧
    is_wf_equations
        (expr.Macro none (.equations_macro_cell example_header) [example_eq1, example_eq2])
      = .ok true ∧
    remove_wf_annotation_from_equations
        (expr.Macro none (.equations_macro_cell example_header) [example_eq1, example_eq2])
      = .ok (expr.Macro none (.equations_macro_cell example_header) [example_eq1]) ∧
    expr.Macro none (.equations_macro_cell example_header) [example_eq1, example_eq2]
      ≠ expr.Macro none (.equations_macro_cell example_header) [example_eq1] :=
  ⟨rfl, rfl, rfl, rfl, by simp⟩

theorem to_equations_of_size (p : Option pos_info) (h : equations_header) (args : List expr)
    (n : Nat) (hsz : equations_size (expr.Macro p (.equations_macro_cell h) args) = .ok n)
    (hle : n ≤ args.length) (buf : List expr) :
    to_equations (expr.Macro p (.equations_macro_cell h) args) buf
      = .ok (buf ++ args.take n) := by
  unfold to_equations
  rw [hsz]
  simp only [is_equations_node, bind, Except.bind, Bool.not_true, Bool.false_eq_true, if_false,
    pure, Except.pure]
  rw [to_equations_loop_eq p _ args n 0 buf (by omega)]
  simp

/-- C19: the reported equation count is in range. For every equations node `e` with at least
one child (and an `unsigned` number of children), `1 <= equations_size(e) <=
macro_num_args(e)`; `equations_size(e) = macro_num_args(e) - 1` exactly when
`is_wf_equations(e)`, in which case the unsigned subtraction does not wrap; and
`to_equations(e)` appends exactly the first `equations_size(e)` children in their order,
reading no index out of range. -/
theorem equations_size_in_range (p : Option pos_info) (h : equations_header)
    (args : List expr) (hne : args ≠ []) (hlen : args.length < unsigned_size) :
    ∃ n b, macro_num_args (expr.Macro p (.equations_macro_cell h) args) = .ok args.length ∧
      equations_size (expr.Macro p (.equations_macro_cell h) args) = .ok n ∧
      is_wf_equations (expr.Macro p (.equations_macro_cell h) args) = .ok b ∧
      1 ≤ n ∧ n ≤ args.length ∧
      (n = args.length - 1 ↔ b = true) ∧
      (n = unsigned_sub args.length 1 ↔ b = true) ∧
      unsigned_sub args.length 1 = args.length - 1 ∧
      ∀ buf : List expr,
        to_equations (expr.Macro p (.equations_macro_cell h) args) buf
          = .ok (buf ++ args.take n) := by
  have hpos : 0 < args.length := List.length_pos.mpr hne
  have hsub : unsigned_sub args.length 1 = args.length - 1 := unsigned_sub_one _ hpos hlen
  by_cases h2 : args.length < 2
  · have hsz := equations_size_short p h args h2
    refine ⟨args.length, false, rfl, hsz, is_wf_equations_short p h args h2, hpos, le_refl _,
      ?_, ?_, hsub, to_equations_of_size p h args _ hsz (le_refl _)⟩
    · constructor
      · intro h0
        omega
      · intro h0
        cases h0
    · rw [hsub]
      constructor
      · intro h0
        omega
      · intro h0
        cases h0
  · obtain ⟨init, last, rfl⟩ := snoc_of_ne_nil args hne
    have hi : init ≠ [] := by
      intro h0
      simp [h0] at h2
    have hipos : 0 < init.length := List.length_pos.mpr hi
    simp only [List.length_append, List.length_singleton] at hlen hsub ⊢
    have hsz := equations_size_snoc p h init last hi hlen
    have hwf := is_wf_equations_snoc p h init last hi hlen
    cases hl : is_lambda_equation last
    · rw [hl] at hsz hwf
      simp only [Bool.false_eq_true, if_false, Bool.not_false] at hsz hwf
      refine ⟨init.length, true, ?_, hsz, hwf, hipos, by omega, ?_, ?_, hsub, ?_⟩
      · simp [macro_num_args, pure, Except.pure]
      · constructor
        · intro _
          rfl
        · intro _
          omega
      · rw [hsub]
        constructor
        · intro _
          rfl
        · intro _
          omega
      · intro buf
        exact to_equations_of_size p h (init ++ [last]) _ hsz (by simp) buf
    · rw [hl] at hsz hwf
      simp only [if_true, Bool.not_true] at hsz hwf
      refine ⟨init.length + 1, false, ?_, hsz, hwf, by omega, le_refl _, ?_, ?_, hsub, ?_⟩
      · simp [macro_num_args, pure, Except.pure]
      · constructor
        · intro h0
          omega
        · intro h0
          cases h0
      · rw [hsub]
        constructor
        · intro h0
          omega
        · intro h0
          cases h0
      · intro buf
        have := to_equations_of_size p h (init ++ [last]) _ hsz (by simp) buf
        simpa using this

theorem equations_size_in_range_witness :
    ([example_eq1, example_eq1, example_tacs] ≠ [] ∧
      [example_eq1, example_eq1, example_tacs].length < unsigned_size) ∧
    ∃ n b,
      macro_num_args (expr.Macro none (.equations_macro_cell example_header)
        [example_eq1, example_eq1, example_tacs])
        = .ok [example_eq1, example_eq1, example_tacs].length ∧
      equations_size (expr.Macro none (.equations_macro_cell example_header)
        [example_eq1, example_eq1, example_tacs]) = .ok n ∧
      is_wf_equations (expr.Macro none (.equations_macro_cell example_header)
        [example_eq1, example_eq1, example_tacs]) = .ok b ∧
      1 ≤ n ∧ n ≤ [example_eq1, example_eq1, example_tacs].length ∧
      (n = [example_eq1, example_eq1, example_tacs].length - 1 ↔ b = true) ∧
      (n = unsigned_sub [example_eq1, example_eq1, example_tacs].length 1 ↔ b = true) ∧
      unsigned_sub [example_eq1, example_eq1, example_tacs].length 1
        = [example_eq1, example_eq1, example_tacs].length - 1 ∧
      ∀ buf : List expr,
        to_equations (expr.Macro none (.equations_macro_cell example_header)
          [example_eq1, example_eq1, example_tacs]) buf
          = .ok (buf ++ [example_eq1, example_eq1, example_tacs].take n) :=
  have h1 : [example_eq1, example_eq1, example_tacs] ≠ [] := by simp
  have h2 : [example_eq1, example_eq1, example_tacs].length < unsigned_size := by
    simp [unsigned_size]
  ⟨⟨h1, h2⟩,
    equations_size_in_range none example_header [example_eq1, example_eq1, example_tacs] h1 h2⟩

end lean
